import Mathlib

/-!
# Verification of the KVM machine driver (docker-machine-driver-kvm)

A shallow embedding of the driver's lifecycle, state-mapping, networking
and IP-discovery logic from `pkg/kvm/kvm.go`, `pkg/kvm/network.go`,
`pkg/kvm/domain.go` and the disk/volume source files, together with
theorems settling the specification's claims about them.

Hypervisor calls (libvirt) are modelled as explicit parameters or as a
small mock state, following the spec's own testable-property framing
("given a mock state query", "given a mock discovery").  Go strings are
modelled as Lean `String`s, with Go's `strings.Split` re-implemented
over `List Char` so that everything evaluates inside the kernel.
-/

namespace KvmDriver

/-- Driver-level machine states, from the docker-machine `state` package
(an external collaborator of this repository): the subset that appears in
the driver's state-mapping table in `kvm.go` `GetState`. -/
inductive DState where
  | none
  | running
  | error
  | paused
  | stopped
  | saved
  deriving DecidableEq, Repr

/-- `state.State.String()` of the docker-machine library, restricted to the
states used by the driver; interpolated into `Stop`'s error message. -/
def DState.str : DState → String
  | .none => "None"
  | .running => "Running"
  | .error => "Error"
  | .paused => "Paused"
  | .stopped => "Stopped"
  | .saved => "Saved"

/-! ## Go string splitting

`strings.Split(s, sep)` for a single-character separator `sep`, the only
uses in the source (`"\n"` and `" "` in `lookupIPFromStatusFile`).
Go semantics: every occurrence of the separator ends a field, empty
fields are kept, and splitting the empty string yields one empty field. -/

/-- Accumulator-passing splitter: `cur` holds the current field reversed. -/
def splitGoAux (sep : Char) : List Char → List Char → List (List Char)
  | cur, [] => [cur.reverse]
  | cur, c :: cs =>
    if c = sep then cur.reverse :: splitGoAux sep [] cs
    else splitGoAux sep (c :: cur) cs

/-- Go's `strings.Split` on a single-character separator. -/
def splitGo (sep : Char) (s : List Char) : List (List Char) :=
  splitGoAux sep [] s

/-! ## Legacy lease-file parser (`network.go` `lookupIPFromStatusFile`)

```go
ipAddress := ""
for _, lease := range strings.Split(string(leases), "\n") {
    if len(lease) == 0 { continue }
    entry := strings.Split(lease, " ")
    if len(entry) != 5 { return "", fmt.Errorf("Malformed leases entry: %s", entry) }
    if entry[3] == d.MachineName { ipAddress = entry[2] }
}
return ipAddress, nil
```
-/

/-- The scan over the lease-file lines, threading the `ipAddress`
accumulator exactly as the Go loop does. -/
def statusFileScan (name : List Char) : List (List Char) → List Char →
    Except String (List Char)
  | [], acc => .ok acc
  | l :: ls, acc =>
    if l.length = 0 then statusFileScan name ls acc
    else
      let entry := splitGo ' ' l
      if entry.length ≠ 5 then
        .error ("Malformed leases entry: " ++ String.mk l)
      else if entry.getD 3 [] = name then
        statusFileScan name ls (entry.getD 2 [])
      else
        statusFileScan name ls acc

/-- `lookupIPFromStatusFile`, taking the lease-file content as a string
(the `ioutil.ReadFile` result; a read failure is outside this model). -/
def lookupIPFromStatusFile (machineName content : String) : Except String String :=
  (statusFileScan machineName.data (splitGo '\n' content.data) []).map String.mk

/-- Field `i` of a lease line (space-split, Go semantics). -/
def leaseField (l : List Char) (i : Nat) : List Char :=
  (splitGo ' ' l).getD i []

/-- A lease line is well formed when nonempty implies exactly five
space-separated fields. -/
def lineOk (l : List Char) : Prop := l ≠ [] → (splitGo ' ' l).length = 5

/-- A nonempty lease line whose hostname field (index 3) equals the
machine name. -/
def matchPred (name l : List Char) : Bool :=
  !l.isEmpty && (leaseField l 3 == name)

/-- Spec-side description of the legacy lookup (from the spec's words):
keep the nonempty lines whose hostname field (index 3) equals the machine
name, and return the IP field (index 2) of the last of them, or the empty
string when none matches. -/
def specLegacyLookup (name : List Char) (lines : List (List Char)) : List Char :=
  match (lines.filter (matchPred name)).getLast? with
  | some l => leaseField l 2
  | Option.none => []

/-! ## State mapping (`kvm.go` `GetState`)

libvirt's `DomainState` is a C enum carried by libvirt-go (an external
collaborator): `NOSTATE=0, RUNNING=1, BLOCKED=2, PAUSED=3, SHUTDOWN=4,
SHUTOFF=5, CRASHED=6, PMSUSPENDED=7`.  `GetState` looks the reported
value up in a fixed map and returns `state.None` when absent. -/

def DOMAIN_NOSTATE : Nat := 0
def DOMAIN_RUNNING : Nat := 1
def DOMAIN_BLOCKED : Nat := 2
def DOMAIN_PAUSED : Nat := 3
def DOMAIN_SHUTDOWN : Nat := 4
def DOMAIN_SHUTOFF : Nat := 5
def DOMAIN_CRASHED : Nat := 6
def DOMAIN_PMSUSPENDED : Nat := 7

/-- The `stateMap` lookup of `GetState`, with the `!ok => state.None`
default branch. -/
def getStateMap (libvirtState : Nat) : DState :=
  match libvirtState with
  | 0 => .none
  | 1 => .running
  | 2 => .error
  | 3 => .paused
  | 4 => .stopped
  | 5 => .stopped
  | 6 => .error
  | 7 => .saved
  | _ => .none

/-! ## IP query (`kvm.go` `GetIP`)

```go
s, err := d.GetState()
if err != nil { return "", errors.Wrap(err, "machine in unknown state") }
if s != state.Running { return "", errors.New("host is not running.") }
ip, err := d.lookupIP()
if err != nil { return "", errors.Wrap(err, "getting IP") }
return ip, nil
```
The state query and the underlying lookup are the mocked collaborators:
`s` is the state it reports, `lookup` its result.  The second component
records whether the underlying lookup was performed. -/

def getIP (s : DState) (lookup : Except String String) :
    Except String String × Bool :=
  if s ≠ .running then (.error "host is not running.", false)
  else
    match lookup with
    | .error e => (.error ("getting IP: " ++ e), true)
    | .ok ip => (.ok ip, true)

/-! ## IP discovery strategy selection (`network.go` `lookupIP`,
`lookupIPFromNetwork`)

```go
libVersion, err := conn.GetLibVersion()
if libVersion < 1002006 { return d.lookupIPFromStatusFile() }
return d.lookupIPFromNetwork(conn)
```
`lookupIPFromNetwork` walks the network's DHCP lease table:
```go
for _, lease := range leases {
    if lease.Type == libvirt.IP_ADDR_TYPE_IPV4 { return lease.IPaddr, nil }
}
return "", nil
```
The connection, network lookup and lease query are mocked by handing the
function the lease table it would obtain. -/

/-- libvirt's `VIR_IP_ADDR_TYPE_IPV4`. -/
def IP_ADDR_TYPE_IPV4 : Nat := 0

/-- libvirt's `VIR_IP_ADDR_TYPE_IPV6`. -/
def IP_ADDR_TYPE_IPV6 : Nat := 1

/-- A DHCP lease as returned by `network.GetDHCPLeases()`: the fields the
driver reads. -/
structure Lease where
  typ : Nat
  ipaddr : String
  deriving DecidableEq, Repr

/-- The lease-table walk of `lookupIPFromNetwork`. -/
def lookupIPFromNetwork : List Lease → Except String String
  | [] => .ok ""
  | l :: rest =>
    if l.typ = IP_ADDR_TYPE_IPV4 then .ok l.ipaddr
    else lookupIPFromNetwork rest

/-- `lookupIP`: the version-threshold gate between the legacy lease-file
parser and the network lease-table query. -/
def lookupIP (libVersion : Nat) (machineName content : String)
    (leases : List Lease) : Except String String :=
  if libVersion < 1002006 then lookupIPFromStatusFile machineName content
  else lookupIPFromNetwork leases

/-! ## Stop (`kvm.go` `Stop`)

```go
d.IPAddress = ""
s, err := d.GetState()
if err != nil { return errors.Wrap(err, "getting state of VM") }
if s != state.Stopped {
    ... dom.DestroyFlags(libvirt.DOMAIN_DESTROY_GRACEFUL) ...
    for i := 0; i < 60; i++ {
        s, err := d.GetState()
        ...
        if s == state.Stopped { return nil }
        time.Sleep(1 * time.Second)
    }
}
return fmt.Errorf("Could not stop VM, current state %s", s.String())
```
The mocked state query is `query : Nat → DState`: `query 0` is the
initial `GetState`, `query (i+1)` the i-th poll inside the loop.  The
outcome records whether the graceful-shutdown request was issued. -/

structure StopOutcome where
  shutdownIssued : Bool
  result : Except String Unit
  deriving Repr

/-- The 60-iteration wait loop: `true` iff some poll reports Stopped (the
`return nil` exit). `idxs` is the list of loop indices `i`. -/
def stopWait (query : Nat → DState) : List Nat → Bool
  | [] => false
  | i :: rest => if query (i + 1) = .stopped then true else stopWait query rest

/-- `Stop` under a mocked state query; the domain handle and the
graceful-shutdown call itself are assumed to succeed. -/
def stopModel (query : Nat → DState) : StopOutcome :=
  let s := query 0
  if s ≠ .stopped then
    if stopWait query (List.range 60) then
      { shutdownIssued := true, result := .ok () }
    else
      { shutdownIssued := true,
        result := .error ("Could not stop VM, current state " ++ s.str) }
  else
    { shutdownIssued := false,
      result := .error ("Could not stop VM, current state " ++ s.str) }

/-! ## Start's IP polling (`kvm.go` `Start`)

```go
time.Sleep(5 * time.Second)
for i := 0; i <= 40; i++ {
    ip, err := d.GetIP()
    if err != nil || ip == "" {
        if err != nil { d.IPAddress = ""; log.Debug(err) }
        time.Sleep(3 * time.Second)
        continue
    }
    if ip != "" { d.IPAddress = ip; break }
}
if d.IPAddress == "" { return errors.New("Machine didn't return an IP after 120 seconds") }
```
The mocked discovery is `disc : Nat → Except Unit String`, giving the
result of the `GetIP` call at loop index `i` (`.error` for a failed call,
`.ok ip` otherwise). `cur` is the cached `d.IPAddress`. -/

/-- The polling loop over the list of loop indices, returning the final
cached `d.IPAddress`. -/
def startLoop (disc : Nat → Except Unit String) (cur : String) :
    List Nat → String
  | [] => cur
  | i :: rest =>
    match disc i with
    | .error _ => startLoop disc "" rest
    | .ok ip => if ip = "" then startLoop disc cur rest else ip

/-- The cached IP after `Start`'s polling phase; the loop runs indices
`0, 1, ..., 40` (`i <= 40`). -/
def startFinalIP (disc : Nat → Except Unit String) (ip0 : String) : String :=
  startLoop disc ip0 (List.range 41)

/-- The result of `Start`'s polling phase (the subsequent `WaitForSSH`
blocking is outside this model): the timeout check on the cached IP. -/
def startModel (disc : Nat → Except Unit String) (ip0 : String) :
    Except String String :=
  let final := startFinalIP disc ip0
  if final = "" then .error "Machine didn't return an IP after 120 seconds"
  else .ok final

/-! ## Network ensure (`network.go` `createNetwork(networkName, networkTmpl)`)

```go
network, err := conn.LookupNetworkByName(networkName)
if err != nil {
    network, err = conn.NetworkDefineXML(networkXML.String())
    if err != nil { return ... }
}
err = network.SetAutostart(true)
if err != nil { return ... }
active, err := network.IsActive()
if err != nil || !active {
    err = network.Create()
    if err != nil { return ... }
}
return nil
```
The hypervisor is mocked as the state of the named network: whether it
is defined, active, and autostarted.  `LookupNetworkByName` fails exactly
when the network is not defined; `NetworkDefineXML` defines it inactive;
`SetAutostart(true)` sets the flag; `Create` activates.  The mock's
operations succeed (the claim is about the control flow, not hypervisor
faults), so every path reaches `return nil`.  The trace records which
hypervisor calls were made. -/

structure NetState where
  defined : Bool
  active : Bool
  autostart : Bool
  deriving DecidableEq, Repr

inductive NetOp where
  | lookup
  | defineXML
  | setAutostart
  | isActive
  | create
  deriving DecidableEq, Repr

/-- `createNetwork` over the mock network state: the resulting state and
the trace of hypervisor calls. -/
def createNetwork (st : NetState) : NetState × List NetOp :=
  let (st₁, tr₁) :=
    if st.defined then (st, [NetOp.lookup])
    else ({ defined := true, active := false, autostart := false },
          [NetOp.lookup, NetOp.defineXML])
  let st₂ := { st₁ with autostart := true }
  let tr₂ := tr₁ ++ [NetOp.setAutostart, NetOp.isActive]
  if st₂.active then (st₂, tr₂)
  else ({ st₂ with active := true }, tr₂ ++ [NetOp.create])

/-! ## Remove (`kvm.go` `Remove`)

```go
network, _ := conn.LookupNetworkByName(d.NetworkName)
if network != nil { network.Destroy(); network.Undefine() }
pool, err := conn.LookupStoragePoolByName("default")
vol, _ := pool.LookupStorageVolByName("minikube-pool0-vol0")
if vol != nil { vol.Delete(0); vol.Free() }
dom, err := conn.LookupDomainByName(d.MachineName)
if dom != nil { dom.Destroy(); dom.Undefine() }
return nil
```
Lookups are mocked by presence flags: a lookup returns a nil handle when
the resource is absent.  `pool.LookupStorageVolByName` is a method on the
possibly-nil `pool` pointer and dereferences it unconditionally, so when
the default pool is absent the call is a nil-pointer dereference (a Go
runtime panic), modelled as the `nilDeref` outcome. -/

structure RemoveEnv where
  networkPresent : Bool
  poolPresent : Bool
  volPresent : Bool
  domainPresent : Bool
  deriving DecidableEq, Repr

inductive RemoveOutcome where
  | ok
  | nilDeref
  deriving DecidableEq, Repr

inductive Teardown where
  | network
  | volume
  | domain
  deriving DecidableEq, Repr

/-- `Remove` over the mock resource environment: the outcome and the
teardown actions performed. -/
def removeModel (e : RemoveEnv) : RemoveOutcome × List Teardown :=
  let acts := if e.networkPresent then [Teardown.network] else []
  if !e.poolPresent then (.nilDeref, acts)
  else
    let acts := acts ++ (if e.volPresent then [Teardown.volume] else [])
    let acts := acts ++ (if e.domainPresent then [Teardown.domain] else [])
    (.ok, acts)

/-! ## Resource templates (`domain.go` `domainTmpl`, disk source `volumeTmpl`)
and the volume names used across operations

Go's `text/template` substitutes the driver's fields into the literal
template text; rendering is modelled as the corresponding string
concatenation. -/

/-- The driver configuration fields the templates read. -/
structure DriverConfig where
  machineName : String
  memory : Int
  cpu : Int
  iso : String
  cacheMode : String
  hostFolder : String
  networkName : String
  diskSize : Int
  diskPath : String

/-- The volume name written by `volumeTmpl`'s
`<name>{{.MachineName}}-pool0-vol0</name>`. -/
def volumeDefinedName (machineName : String) : String :=
  machineName ++ "-pool0-vol0"

/-- The volume name `Remove` looks up:
`pool.LookupStorageVolByName("minikube-pool0-vol0")`. -/
def removeVolumeLookupName : String := "minikube-pool0-vol0"

/-- The volume the domain definition attaches:
`<source pool='default' volume='minikube-pool0-vol0'/>` in `domainTmpl`. -/
def domainDiskVolumeRef : String := "minikube-pool0-vol0"

def volumeTmplHead : String := "\n<volume>\n  <name>"

def volumeTmplTail (cfg : DriverConfig) : String :=
  "</name>\n  <allocation>0</allocation>\n  <capacity unit=\"MB\">"
  ++ toString cfg.diskSize
  ++ "</capacity>\n  <format type=\"raw\"/>\n  <target>\n    <path>"
  ++ cfg.diskPath
  ++ "</path>\n    <permissions>\n      <owner>107</owner>\n      <group>107</group>\n      <mode>0744</mode>\n      <label>virt_image_t</label>\n    </permissions>\n  </target>\n</volume>\n"

/-- `volumeTmpl` rendered against the driver configuration. -/
def volumeTmplRender (cfg : DriverConfig) : String :=
  volumeTmplHead ++ volumeDefinedName cfg.machineName ++ volumeTmplTail cfg

/-- `domainTmpl` up to the disk attachment's `volume='` attribute. -/
def domainTmplPre (cfg : DriverConfig) : String :=
  "\n<domain type='kvm'>\n  <name>"
  ++ cfg.machineName
  ++ "</name> \n  <memory unit='MB'>"
  ++ toString cfg.memory
  ++ "</memory>\n  <vcpu>"
  ++ toString cfg.cpu
  ++ "</vcpu>\n  <features>\n    <acpi/>\n    <apic/>\n    <pae/>\n  </features>\n  <os>\n    <type>hvm</type>\n    <boot dev='cdrom'/>\n    <boot dev='hd'/>\n    <bootmenu enable='no'/>\n  </os>\n  <devices>\n    <disk type='file' device='cdrom'>\n      <source file='"
  ++ cfg.iso
  ++ "'/>\n      <target dev='hdc' bus='ide'/>\n      <readonly/>\n    </disk>\n    <disk type='volume' device='disk'>\n      <driver name='qemu' type='raw' cache='"
  ++ cfg.cacheMode
  ++ "' io='threads' />\n      <source pool='default' volume='"

/-- `domainTmpl` after the disk attachment's volume name. -/
def domainTmplPost (cfg : DriverConfig) : String :=
  "'/>\n      <target dev='hda' bus='ide'/>\n    </disk>\n    <filesystem type='mount' accessmode='passthrough'>\n      <driver type='path'/>\n      <source dir='"
  ++ cfg.hostFolder
  ++ "'/>\n      <target dir='/hostdata'/>\n      <readonly/>\n    </filesystem>\n    <interface type='network'>\n      <source network='default'/>\n    </interface>\n    <interface type='network'>\n      <source network='"
  ++ cfg.networkName
  ++ "'/>\n    </interface>\n  </devices>\n</domain>\n"

/-- `domainTmpl` rendered against the driver configuration. -/
def domainTmplRender (cfg : DriverConfig) : String :=
  domainTmplPre cfg ++ domainDiskVolumeRef ++ domainTmplPost cfg

/-- Substring occurrence over char lists (sliding `isPrefixOf`). -/
def listContains (pat : List Char) : List Char → Bool
  | [] => pat.isEmpty
  | c :: t => pat.isPrefixOf (c :: t) || listContains pat t

/-- `pat` occurs as a substring of `s`. -/
def strContains (s pat : String) : Bool :=
  listContains pat.data s.data

/-! ## Theorems -/

/-- The lease-table walk returns the first IPv4 lease, as a `find?`. -/
theorem lookupIPFromNetwork_eq_find (ls : List Lease) :
    lookupIPFromNetwork ls =
      match ls.find? (fun l => l.typ == IP_ADDR_TYPE_IPV4) with
      | some l => .ok l.ipaddr
      | Option.none => .ok "" := by
  induction ls with
  | nil => rfl
  | cons l rest ih =>
    by_cases h : l.typ = IP_ADDR_TYPE_IPV4
    · simp [lookupIPFromNetwork, List.find?_cons, h]
    · simp [lookupIPFromNetwork, List.find?_cons, h, ih]

/-- C4: the state mapping is a total deterministic function: every
hypervisor-reported domain state value maps to exactly one of
{None, Running, Error, Paused, Stopped, Saved}, and every value outside
the eight mapped libvirt states (0..7) maps to None. -/
theorem getStateMap_total_and_defaults (n : Nat) :
    getStateMap n ∈ [DState.none, DState.running, DState.error,
      DState.paused, DState.stopped, DState.saved] ∧
    (8 ≤ n → getStateMap n = DState.none) := by
  constructor
  · match n with
    | 0 | 1 | 2 | 3 | 4 | 5 | 6 | 7 => decide
    | (m + 8) => simp [getStateMap]
  · intro h
    match n, h with
    | (m + 8), _ => rfl

/-- Witness for C4 at the unmapped hypervisor value 9. -/
theorem getStateMap_total_and_defaults_witness :
    getStateMap 9 = DState.none :=
  (getStateMap_total_and_defaults 9).2 (by omega)

/-- C6: the IP query fails with "host is not running." for every state
other than Running and performs the underlying lookup only when the
state is Running. -/
theorem getIP_requires_running (s : DState) (lk : Except String String) :
    (s ≠ DState.running →
      getIP s lk = (.error "host is not running.", false)) ∧
    (s = DState.running → (getIP s lk).2 = true) := by
  constructor
  · intro h
    simp [getIP, h]
  · intro h
    subst h
    cases lk <;> simp [getIP]

/-- Witness for C6 at the Stopped state. -/
theorem getIP_requires_running_witness :
    getIP DState.stopped (.ok "1.2.3.4") = (.error "host is not running.", false) :=
  (getIP_requires_running DState.stopped (.ok "1.2.3.4")).1 (by decide)

/-- C7: IP lookup selects its strategy by the numeric version threshold
1002006 — legacy lease-file parser below it, network DHCP lease-table
query at or above it; the lease-table query returns the IP of the first
IPv4 lease and the empty string with no error when no IPv4 lease
exists. -/
theorem lookupIP_strategy_and_leases (v : Nat) (name content : String)
    (ls : List Lease) :
    (v < 1002006 →
      lookupIP v name content ls = lookupIPFromStatusFile name content) ∧
    (1002006 ≤ v → lookupIP v name content ls = lookupIPFromNetwork ls) ∧
    lookupIPFromNetwork ls =
      (match ls.find? (fun l => l.typ == IP_ADDR_TYPE_IPV4) with
       | some l => .ok l.ipaddr
       | Option.none => .ok "") ∧
    ((∀ l ∈ ls, l.typ ≠ IP_ADDR_TYPE_IPV4) → lookupIPFromNetwork ls = .ok "") := by
  refine ⟨?_, ?_, lookupIPFromNetwork_eq_find ls, ?_⟩
  · intro h
    simp [lookupIP, h]
  · intro h
    simp [lookupIP, Nat.not_lt.mpr h]
  · intro h
    have hfind : ls.find? (fun l => l.typ == IP_ADDR_TYPE_IPV4) = Option.none := by
      apply List.find?_eq_none.mpr
      intro l hl
      simpa using h l hl
    simp [lookupIPFromNetwork_eq_find ls, hfind]

/-- Witness for C7: a below-threshold version routes to the legacy
parser, an at-threshold version with an IPv6-then-IPv4 table returns the
first IPv4 lease. -/
theorem lookupIP_strategy_and_leases_witness :
    lookupIP 1002005 "m" "100 aa 1.2.3.4 m ext" [⟨0, "7.7.7.7"⟩] =
      lookupIPFromStatusFile "m" "100 aa 1.2.3.4 m ext" ∧
    lookupIP 1002006 "m" "" [⟨1, "x"⟩, ⟨0, "7.7.7.7"⟩] =
      lookupIPFromNetwork [⟨1, "x"⟩, ⟨0, "7.7.7.7"⟩] :=
  ⟨(lookupIP_strategy_and_leases 1002005 "m" "100 aa 1.2.3.4 m ext"
      [⟨0, "7.7.7.7"⟩]).1 (by omega),
   (lookupIP_strategy_and_leases 1002006 "m" ""
      [⟨1, "x"⟩, ⟨0, "7.7.7.7"⟩]).2.1 (by omega)⟩

/-- C1 (code bug): when the state query reports Stopped at the moment
Stop is invoked, the code skips the graceful-shutdown block but then
falls through to the trailing `return fmt.Errorf(...)`, so Stop reports
the error "Could not stop VM, current state Stopped" instead of
succeeding; moreover when the 60 polls never observe Stopped, the error
interpolates the state observed before shutdown (the outer `s`), not the
last-observed poll state (here Paused). -/
theorem stop_already_stopped_returns_error :
    stopModel (fun _ => DState.stopped) =
      { shutdownIssued := false,
        result := .error "Could not stop VM, current state Stopped" } ∧
    stopModel (fun i => if i = 0 then DState.running else DState.paused) =
      { shutdownIssued := true,
        result := .error "Could not stop VM, current state Running" } := by
  constructor <;> rfl

/-- C8 (code bug): when the default storage pool is absent, `Remove`
calls `pool.LookupStorageVolByName` on the nil pool handle and
dereferences it — a runtime panic instead of the claimed nil return;
with the pool present, absent network/volume/domain are skipped and
Remove returns nil. -/
theorem remove_nil_pool_dereference :
    removeModel { networkPresent := true, poolPresent := false,
                  volPresent := false, domainPresent := true } =
      (RemoveOutcome.nilDeref, [Teardown.network]) ∧
    removeModel { networkPresent := false, poolPresent := true,
                  volPresent := false, domainPresent := false } =
      (RemoveOutcome.ok, []) ∧
    removeModel { networkPresent := true, poolPresent := true,
                  volPresent := true, domainPresent := true } =
      (RemoveOutcome.ok, [Teardown.network, Teardown.volume, Teardown.domain]) := by
  refine ⟨rfl, rfl, rfl⟩

/-- C5: network ensure is idempotent — on a network that is already
defined and active the call traces only lookup/setAutostart/isActive
(no define, no activate), sets autostart, and leaves the network active;
and a first call from any state establishes defined-and-active, so a
second call always takes that path. -/
theorem createNetwork_idempotent (st : NetState) :
    ((createNetwork st).1.defined = true ∧ (createNetwork st).1.active = true ∧
      (createNetwork st).1.autostart = true) ∧
    (st.defined = true → st.active = true →
      (createNetwork st).2 = [NetOp.lookup, NetOp.setAutostart, NetOp.isActive] ∧
      NetOp.defineXML ∉ (createNetwork st).2 ∧
      NetOp.create ∉ (createNetwork st).2) ∧
    (createNetwork (createNetwork st).1).2 =
      [NetOp.lookup, NetOp.setAutostart, NetOp.isActive] := by
  obtain ⟨d, a, auto⟩ := st
  cases d <;> cases a <;> cases auto <;>
    refine ⟨by decide, fun h₁ h₂ => ?_, by decide⟩ <;> simp_all <;> decide

/-- Witness for C5 at a network that already exists and is active. -/
theorem createNetwork_idempotent_witness :
    (createNetwork ⟨true, true, false⟩).2 =
      [NetOp.lookup, NetOp.setAutostart, NetOp.isActive] :=
  ((createNetwork_idempotent ⟨true, true, false⟩).2.1 rfl rfl).1

/-- The polling loop reads the discovery mock only at the loop indices. -/
theorem startLoop_congr (disc disc₂ : Nat → Except Unit String)
    (l : List Nat) (cur : String) (h : ∀ i ∈ l, disc i = disc₂ i) :
    startLoop disc cur l = startLoop disc₂ cur l := by
  induction l generalizing cur with
  | nil => rfl
  | cons i rest ih =>
    have hi := h i (by simp)
    have hrest : ∀ j ∈ rest, disc j = disc₂ j := fun j hj => h j (by simp [hj])
    simp only [startLoop, hi]
    cases disc₂ i with
    | error e => exact ih "" hrest
    | ok ip =>
      by_cases hip : ip = ""
      · simp [hip, ih cur hrest]
      · simp [hip]

/-- Attempts that all report an empty address leave the cached IP as it
was. -/
theorem startLoop_all_empty (disc : Nat → Except Unit String)
    (l : List Nat) (cur : String) (h : ∀ i ∈ l, disc i = .ok "") :
    startLoop disc cur l = cur := by
  induction l with
  | nil => rfl
  | cons i rest ih =>
    have hi := h i (by simp)
    simp only [startLoop, hi]
    exact ih fun j hj => h j (by simp [hj])

/-- An all-empty prefix of attempts can be dropped. -/
theorem startLoop_drop_empty_leading (disc : Nat → Except Unit String)
    (l₁ l₂ : List Nat) (cur : String) (h : ∀ i ∈ l₁, disc i = .ok "") :
    startLoop disc cur (l₁ ++ l₂) = startLoop disc cur l₂ := by
  induction l₁ with
  | nil => rfl
  | cons i rest ih =>
    have hi := h i (by simp)
    simp only [List.cons_append, startLoop, hi]
    exact ih fun j hj => h j (by simp [hj])

/-- C2 counterexample: a discovery mock that reports an empty address on
every one of the first 40 attempts (loop indices 0..39). -/
def discAllForty (k : Nat) : String := if k = 40 then "1.2.3.4" else ""

/-- C2 is false as stated: with `discAllForty` every one of the first 40
attempts returns empty, yet Start does not fail — the loop runs a 41st
attempt (`i <= 40`) which returns an address, and Start caches it. -/
theorem start_forty_attempts_counterexample :
    ((List.range 40).all fun k => discAllForty k == "") = true ∧
    startModel (fun k => .ok (discAllForty k)) "" = .ok "1.2.3.4" := by
  constructor <;> rfl

/-- C2 amended: Start's poll loop runs at most 41 attempts (loop indices
0..40): the outcome depends only on the discovery results at indices
≤ 40; if the earliest non-empty attempt is at index k₀ ≤ 40, Start
caches that address; if all 41 attempts return empty, Start fails with
the timeout error and the cached IP is left empty. -/
theorem start_poll_amended (disc disc₂ : Nat → Except Unit String)
    (f : Nat → String) (k₀ : Nat) :
    ((∀ k ≤ 40, disc k = disc₂ k) →
      startModel disc "" = startModel disc₂ "") ∧
    ((∀ k ≤ 40, f k = "") →
      startFinalIP (fun k => .ok (f k)) "" = "" ∧
      startModel (fun k => .ok (f k)) "" =
        .error "Machine didn't return an IP after 120 seconds") ∧
    (k₀ ≤ 40 → f k₀ ≠ "" → (∀ j < k₀, f j = "") →
      startModel (fun k => .ok (f k)) "" = .ok (f k₀)) := by
  refine ⟨?_, ?_, ?_⟩
  · intro h
    have : startFinalIP disc "" = startFinalIP disc₂ "" := by
      apply startLoop_congr
      intro i hi
      exact h i (by have := List.mem_range.mp hi; omega)
    simp [startModel, this]
  · intro h
    have hfin : startFinalIP (fun k => .ok (f k)) "" = "" := by
      apply startLoop_all_empty
      intro i hi
      have := List.mem_range.mp hi
      simp [h i (by omega)]
    exact ⟨hfin, by simp [startModel, hfin]⟩
  · intro hk₀ hne hbefore
    have hsplit : List.range 41 =
        List.range k₀ ++ List.map (fun x => k₀ + x) (List.range (41 - k₀)) := by
      rw [← List.range_add]
      congr 1
      omega
    have hfin : startFinalIP (fun k => .ok (f k)) "" = f k₀ := by
      unfold startFinalIP
      rw [hsplit]
      rw [startLoop_drop_empty_leading _ _ _ _
        (fun i hi => by simp [hbefore i (List.mem_range.mp hi)])]
      obtain ⟨m, hm⟩ : ∃ m, 41 - k₀ = m + 1 := ⟨40 - k₀, by omega⟩
      rw [hm, List.range_succ_eq_map]
      simp only [List.map_cons, Nat.add_zero, startLoop]
      simp [hne]
    simp [startModel, hfin, hne]

/-- Witness for C2 amended: discovery empty on the first two attempts
and an address on the third. -/
theorem start_poll_amended_witness :
    startModel (fun k => .ok (if k = 2 then "5.5.5.5" else "")) "" =
      .ok "5.5.5.5" := by
  have h := (start_poll_amended (fun k => .ok (if k = 2 then "5.5.5.5" else ""))
    (fun k => .ok (if k = 2 then "5.5.5.5" else ""))
    (fun k => if k = 2 then "5.5.5.5" else "") 2).2.2
    (by omega) (by decide) (by decide)
  simpa using h

instance (l : List Char) : Decidable (lineOk l) :=
  if h5 : (splitGo ' ' l).length = 5 then .isTrue fun _ => h5
  else if hl : l = [] then .isTrue fun hne => absurd hl hne
  else .isFalse fun f => h5 (f hl)

/-- Branch-level unfolding of the scan on a cons cell. -/
theorem statusFileScan_cons (name l : List Char) (ls : List (List Char))
    (acc : List Char) :
    statusFileScan name (l :: ls) acc =
      if l.length = 0 then statusFileScan name ls acc
      else if (splitGo ' ' l).length ≠ 5 then
        .error ("Malformed leases entry: " ++ String.mk l)
      else if (splitGo ' ' l).getD 3 [] = name then
        statusFileScan name ls ((splitGo ' ' l).getD 2 [])
      else statusFileScan name ls acc := rfl

/-- On well-formed lines the scan computes "last matching line wins",
with the accumulator as the no-match default. -/
theorem statusFileScan_wellformed (name : List Char) :
    ∀ (ls : List (List Char)) (acc : List Char),
    (∀ l ∈ ls, lineOk l) →
    statusFileScan name ls acc =
      .ok (match (ls.filter (matchPred name)).getLast? with
           | some l => leaseField l 2
           | Option.none => acc) := by
  intro ls
  induction ls with
  | nil =>
    intro acc _
    rfl
  | cons l rest ih =>
    intro acc h
    have hrest : ∀ x ∈ rest, lineOk x := fun x hx => h x (by simp [hx])
    rw [statusFileScan_cons]
    by_cases hemp : l.length = 0
    · have hl0 : l = [] := List.length_eq_zero.mp hemp
      have hp : matchPred name l = false := by simp [matchPred, hl0]
      rw [if_pos hemp, List.filter_cons_of_neg (by simp [hp])]
      exact ih acc hrest
    · have hne : l ≠ [] := fun h0 => hemp (by simp [h0])
      have h5 : (splitGo ' ' l).length = 5 := h l (by simp) hne
      rw [if_neg hemp, if_neg (by omega)]
      by_cases hm : (splitGo ' ' l).getD 3 [] = name
      · have hp : matchPred name l = true := by
          simp only [matchPred, leaseField, Bool.and_eq_true, beq_iff_eq]
          refine ⟨by simp [hne], ?_⟩
          simpa using hm
        rw [if_pos hm, List.filter_cons_of_pos hp, ih _ hrest]
        cases hfr : rest.filter (matchPred name) with
        | nil => simp [leaseField]
        | cons y ys =>
          rw [List.getLast?_cons_cons]
          cases hgl : (y :: ys).getLast? with
          | none => simp at hgl
          | some z => rfl
      · have hp : matchPred name l = false := by
          simp only [matchPred, leaseField, Bool.and_eq_false_iff]
          right
          simpa using hm
        rw [if_neg hm, List.filter_cons_of_neg (by simp [hp])]
        exact ih acc hrest

/-- A nonempty malformed line anywhere makes the scan fail. -/
theorem statusFileScan_malformed (name : List Char) :
    ∀ (ls : List (List Char)) (acc : List Char),
    (∃ l ∈ ls, l ≠ [] ∧ (splitGo ' ' l).length ≠ 5) →
    ∃ e, statusFileScan name ls acc = .error e := by
  intro ls
  induction ls with
  | nil =>
    rintro acc ⟨l, hl, -⟩
    simp at hl
  | cons l rest ih =>
    rintro acc ⟨x, hx, hxne, hx5⟩
    rw [statusFileScan_cons]
    by_cases hemp : l.length = 0
    · have hl0 : l = [] := List.length_eq_zero.mp hemp
      have hxr : x ∈ rest := by
        rcases List.mem_cons.mp hx with rfl | hxr
        · exact absurd hl0 hxne
        · exact hxr
      rw [if_pos hemp]
      exact ih acc ⟨x, hxr, hxne, hx5⟩
    · rw [if_neg hemp]
      by_cases h5 : (splitGo ' ' l).length = 5
      · have hxr : x ∈ rest := by
          rcases List.mem_cons.mp hx with rfl | hxr
          · exact absurd h5 hx5
          · exact hxr
        rw [if_neg (by omega)]
        by_cases hm : (splitGo ' ' l).getD 3 [] = name
        · rw [if_pos hm]
          exact ih _ ⟨x, hxr, hxne, hx5⟩
        · rw [if_neg hm]
          exact ih acc ⟨x, hxr, hxne, hx5⟩
      · exact ⟨"Malformed leases entry: " ++ String.mk l, by rw [if_pos (by omega)]⟩

/-- C3: when every nonempty line of the lease file splits into exactly
five space-separated fields, the legacy lookup returns the IP field of
the last line whose hostname field equals the machine name (empty
string, no error, when none matches); when some nonempty line has a
field count other than five, it returns a parse error. -/
theorem legacy_parser_spec (name content : String) :
    ((∀ l ∈ splitGo '\n' content.data, lineOk l) →
      lookupIPFromStatusFile name content =
        .ok (String.mk (specLegacyLookup name.data (splitGo '\n' content.data)))) ∧
    ((∃ l ∈ splitGo '\n' content.data, l ≠ [] ∧ (splitGo ' ' l).length ≠ 5) →
      ∃ e, lookupIPFromStatusFile name content = .error e) := by
  constructor
  · intro h
    unfold lookupIPFromStatusFile specLegacyLookup
    rw [statusFileScan_wellformed name.data _ [] h]
    rfl
  · intro h
    obtain ⟨e, he⟩ := statusFileScan_malformed name.data _ [] h
    exact ⟨e, by simp [lookupIPFromStatusFile, he, Except.map]⟩

/-- Witness for C3: a two-line lease file where both lines match the
machine name — last one wins — and a malformed one-field line. -/
theorem legacy_parser_spec_witness :
    lookupIPFromStatusFile "mini"
      "100 aa:bb 1.2.3.4 mini ff:aa\n200 cc:dd 5.6.7.8 mini ff:bb" =
      .ok "5.6.7.8" ∧
    (∃ e, lookupIPFromStatusFile "mini" "badline" = .error e) :=
  ⟨((legacy_parser_spec "mini"
      "100 aa:bb 1.2.3.4 mini ff:aa\n200 cc:dd 5.6.7.8 mini ff:bb").1
      (by decide)).trans (by rfl),
   (legacy_parser_spec "mini" "badline").2 (by decide)⟩

/-- Dropping the empty lines does not change the scan. -/
theorem statusFileScan_filter_nonempty (name : List Char) :
    ∀ (ls : List (List Char)) (acc : List Char),
    statusFileScan name (ls.filter fun l => !l.isEmpty) acc =
      statusFileScan name ls acc := by
  intro ls
  induction ls with
  | nil =>
    intro acc
    rfl
  | cons l rest ih =>
    intro acc
    by_cases hl0 : l = []
    · subst hl0
      rw [List.filter_cons_of_neg (by simp), statusFileScan_cons]
      simp only [List.length_nil, if_pos (Eq.refl (0 : Nat))]
      exact ih acc
    · have hemp : ¬l.length = 0 := by simp [hl0]
      rw [List.filter_cons_of_pos (by simp [hl0]), statusFileScan_cons,
        statusFileScan_cons]
      simp only [if_neg hemp]
      by_cases h5 : (splitGo ' ' l).length = 5
      · have h5' : ¬((splitGo ' ' l).length ≠ 5) := by omega
        simp only [if_neg h5']
        by_cases hm : (splitGo ' ' l).getD 3 [] = name
        · simp only [if_pos hm]
          exact ih _
        · simp only [if_neg hm]
          exact ih acc
      · simp only [if_pos (show (splitGo ' ' l).length ≠ 5 from h5)]

/-- Branch-level unfolding of the splitter on a cons cell. -/
theorem splitGoAux_cons (sep c : Char) (cur cs : List Char) :
    splitGoAux sep cur (c :: cs) =
      if c = sep then cur.reverse :: splitGoAux sep [] cs
      else splitGoAux sep (c :: cur) cs := rfl

/-- Appending the separator at the end appends one empty field. -/
theorem splitGoAux_append_sep (sep : Char) :
    ∀ (xs cur : List Char),
    splitGoAux sep cur (xs ++ [sep]) = splitGoAux sep cur xs ++ [[]] := by
  intro xs
  induction xs with
  | nil =>
    intro cur
    simp [splitGo, splitGoAux]
  | cons c cs ih =>
    intro cur
    rw [List.cons_append, splitGoAux_cons, splitGoAux_cons]
    by_cases hc : c = sep
    · simp only [if_pos hc]
      rw [ih []]
      rfl
    · simp only [if_neg hc]
      exact ih (c :: cur)

/-- C10 (implicit): the legacy lease-file parser skips empty lines
before field-splitting — the scan is invariant under removing the empty
lines and under a trailing newline on the file — even though an empty
line space-splits into one field, not five. -/
theorem legacy_parser_blank_lines (name content : String) :
    (∀ (ls : List (List Char)) (acc : List Char),
      statusFileScan name.data (ls.filter fun l => !l.isEmpty) acc =
        statusFileScan name.data ls acc) ∧
    lookupIPFromStatusFile name (content ++ "\n") =
      lookupIPFromStatusFile name content ∧
    (splitGo ' ' []).length ≠ 5 := by
  refine ⟨statusFileScan_filter_nonempty name.data, ?_, by decide⟩
  unfold lookupIPFromStatusFile
  have hdata : (content ++ "\n").data = content.data ++ ['\n'] := by
    rw [String.data_append]
  have hsplit : splitGo '\n' (content ++ "\n").data =
      splitGo '\n' content.data ++ [[]] := by
    rw [hdata]
    exact splitGoAux_append_sep '\n' content.data []
  rw [hsplit]
  have h₁ := statusFileScan_filter_nonempty name.data
    (splitGo '\n' content.data ++ [[]]) []
  have h₂ := statusFileScan_filter_nonempty name.data (splitGo '\n' content.data) []
  rw [← h₁, ← h₂]
  congr 1
  simp

/-- A configuration with machine name "foo", otherwise the driver
defaults (CPU 1, memory 2048, disk size 20000, cache mode "threads",
network "minikube-net"). -/
def cfgFoo : DriverConfig :=
  { machineName := "foo", memory := 2048, cpu := 1,
    iso := "/store/machines/foo/boot2docker.iso", cacheMode := "threads",
    hostFolder := "/home/user", networkName := "minikube-net",
    diskSize := 20000, diskPath := "/store/machines/foo" }

set_option maxRecDepth 100000 in
/-- C9 is false as stated: for machine name "foo" the storage volume is
created as "foo-pool0-vol0" (per `volumeTmpl`), but the domain
definition's disk attachment and `Remove`'s volume deletion both use the
fixed name "minikube-pool0-vol0", which differs from the machine-derived
name. -/
theorem volume_naming_counterexample :
    volumeDefinedName "foo" = "foo-pool0-vol0" ∧
    strContains (volumeTmplRender cfgFoo) "<name>foo-pool0-vol0</name>" = true ∧
    strContains (domainTmplRender cfgFoo) "foo-pool0-vol0" = false ∧
    strContains (domainTmplRender cfgFoo) "volume='minikube-pool0-vol0'" = true ∧
    removeVolumeLookupName ≠ volumeDefinedName "foo" := by
  refine ⟨rfl, rfl, rfl, rfl, by decide⟩

/-- C9 amended: the storage volume is created under the machine-derived
name `<machine-name>-pool0-vol0`, but the domain definition's disk
attachment and Remove's volume deletion both refer to the fixed name
`minikube-pool0-vol0`; the creation name and the referenced name
coincide exactly when the machine name is "minikube". -/
theorem volume_naming_amended (cfg : DriverConfig) :
    volumeTmplRender cfg =
      volumeTmplHead ++ volumeDefinedName cfg.machineName ++ volumeTmplTail cfg ∧
    domainTmplRender cfg =
      domainTmplPre cfg ++ domainDiskVolumeRef ++ domainTmplPost cfg ∧
    domainDiskVolumeRef = "minikube-pool0-vol0" ∧
    removeVolumeLookupName = "minikube-pool0-vol0" ∧
    (volumeDefinedName cfg.machineName = domainDiskVolumeRef ↔
      cfg.machineName = "minikube") := by
  refine ⟨rfl, rfl, rfl, rfl, ?_, ?_⟩
  · intro h
    have hsplit : cfg.machineName ++ "-pool0-vol0" = "minikube" ++ "-pool0-vol0" := h
    have hdata := congrArg String.data hsplit
    rw [String.data_append, String.data_append] at hdata
    exact String.ext (List.append_cancel_right hdata)
  · intro h
    rw [volumeDefinedName, h]
    rfl

end KvmDriver
